import Mathlib

/-!
Verification of the retrieval-and-orchestration core of the policy RAG
service (`app/services/vector_store.py`, `app/services/embedding_service.py`,
`app/services/generation_service.py`, `app/main.py`).

Floating-point scores and distances are modelled as rationals; the Python
dict/list values are modelled by explicit structures; the stateful service
objects are modelled by explicit state passing, and the asyncio cooperative
scheduling of `initialize` is modelled by a step relation whose atomic
blocks are the code regions between `await` suspension points.
-/

namespace PolicyRag

/-- One raw nearest-neighbor result, as produced by
`self.collection.query(...)` in `VectorStoreService.search`: the parallel
entries `results["ids"][0][i]`, `results["documents"][0][i]`,
`results["metadatas"][0][i].get("policy_type")`,
`results["metadatas"][0][i].get("section")` and
`results["distances"][0][i]`. -/
structure RawResult where
  id : String
  document : String
  policyType : Option String
  sect : Option String
  distance : ℚ
deriving DecidableEq, Repr

/-- The `clause_dict` built for each kept result in
`VectorStoreService.search` (keys `clause_id`, `clause_text`,
`policy_type`, `section`, `relevance_score`). -/
structure ClauseDict where
  clause_id : String
  clause_text : String
  policy_type : Option String
  sect : Option String
  relevance_score : ℚ
deriving DecidableEq, Repr

/-- The pair `(clause_dict, score)` appended to `formatted_results` for a
raw result, with `score = 1.0 - distance` (vector_store.py lines 148-166). -/
def scoredOf (r : RawResult) : ClauseDict × ℚ :=
  let score := 1 - r.distance
  ({ clause_id := r.id, clause_text := r.document, policy_type := r.policyType,
     sect := r.sect, relevance_score := score }, score)

/-- The result-formatting stage of `VectorStoreService.search`
(vector_store.py lines 141-181), taking the raw results of the index query
as input: when the raw result list is nonempty, the loop computes
`score = 1.0 - distance` for each raw result in order and appends
`(clause_dict, score)` exactly when `score >= min_score`; otherwise
`formatted_results` stays empty.  The function is total: this code path of
the source raises no exception. -/
def search (raw_results : List RawResult) (min_score : ℚ) : List (ClauseDict × ℚ) :=
  if raw_results.isEmpty then []
  else raw_results.filterMap fun r =>
    if min_score ≤ 1 - r.distance then some (scoredOf r) else none

/-- Observable state of `EmbeddingService`: the `_initialized` flag, the
number of `SentenceTransformer` model loads performed by its `initialize`,
and the number of `self.model.encode` batch-inference calls. -/
structure EmbSt where
  ready : Bool
  loads : Nat
  encodeCalls : Nat
deriving DecidableEq, Repr

/-- `EmbeddingService.encode` (embedding_service.py lines 45-75): first
`if not self._initialized: await self.initialize()` (loads the model and
sets the flag), then `if not texts: return []`, otherwise one call of the
model's batch encode (modelled by the parameter `modelEncode`). -/
def encode (st : EmbSt) (modelEncode : List String → List (List ℚ))
    (texts : List String) : EmbSt × List (List ℚ) :=
  let st1 := if st.ready then st
             else { ready := true, loads := st.loads + 1, encodeCalls := st.encodeCalls }
  if texts.isEmpty then (st1, [])
  else ({ st1 with encodeCalls := st1.encodeCalls + 1 }, modelEncode texts)

/-- `EmbeddingService.encode_single` (embedding_service.py lines 77-88):
`embeddings = await self.encode([text]); return embeddings[0] if embeddings
else []`. -/
def encode_single (st : EmbSt) (modelEncode : List String → List (List ℚ))
    (text : String) : EmbSt × List ℚ :=
  let res := encode st modelEncode [text]
  (res.1,
    match res.2 with
    | [] => []
    | e :: _ => e)

/-- Observable state of `GenerationService`: the `_initialized` flag, the
number of LLM model loads performed by its `initialize`, and the number of
`self.model.generate` calls. -/
structure GenSt where
  ready : Bool
  loads : Nat
  generateCalls : Nat
deriving DecidableEq, Repr

/-- One bullet line of the prompt context:
`f"- [{c['clause_id']}] {c['clause_text']}"`. -/
def bulletLine (c : ClauseDict) : String :=
  "- [" ++ c.clause_id ++ "] " ++ c.clause_text

/-- Python `sep.join(items)`. -/
def pyJoin (sep : String) : List String → String
  | [] => ""
  | [x] => x
  | x :: y :: xs => x ++ sep ++ pyJoin sep (y :: xs)

/-- The prompt built by `GenerationService.generate_analysis`
(generation_service.py lines 73-87): the instruction header, the bullet
context joined by newlines, the user claim, and the `ANALYSIS:` answer
marker, concatenated exactly as the source f-string does. -/
def buildPrompt (query : String) (retrieved_clauses : List ClauseDict) : String :=
  let context := pyJoin "\n" (retrieved_clauses.map bulletLine)
  "Instruct: You are an expert Insurance Policy Analyst. " ++
  "Based on the following policy clauses, analyze the user's claim description. " ++
  "State if it is likely covered and cite the clause ID.\n\n" ++
  "POLICY CLAUSES:\n" ++ context ++ "\n\nUSER CLAIM: " ++ query ++ "\n\nANALYSIS:"

/-- Python `str.split(sep)` for a non-empty separator `s :: ss`, scanning
left to right for non-overlapping occurrences; the fuel argument (always
instantiated with the length of the scanned list) makes the recursion
structural. -/
def pySplitF : Nat → Char → List Char → List Char → List (List Char)
  | 0, _, _, _ => [[]]
  | _ + 1, _, _, [] => [[]]
  | fuel + 1, s, ss, x :: xs =>
    if (s :: ss).isPrefixOf (x :: xs) then
      [] :: pySplitF fuel s ss (xs.drop ss.length)
    else
      match pySplitF fuel s ss xs with
      | [] => [[x]]
      | seg :: rest => (x :: seg) :: rest

/-- Python `l.split(s :: ss)`. -/
def pySplit (s : Char) (ss : List Char) (l : List Char) : List (List Char) :=
  pySplitF l.length s ss l

/-- Python `pat in l` for character sequences: some occurrence of `pat`
starts at some position of `l`. -/
def containsSeq (pat l : List Char) : Bool :=
  match l with
  | [] => pat.isEmpty
  | x :: xs => pat.isPrefixOf (x :: xs) || containsSeq pat xs

/-- The characters removed by Python `str.strip()`. -/
def pyWhitespace (c : Char) : Bool :=
  c == ' ' || c == '\t' || c == '\n' || c == '\r' || c == Char.ofNat 11 || c == Char.ofNat 12

/-- Python `str.strip()`: remove leading and trailing whitespace. -/
def pyStrip (l : List Char) : List Char :=
  ((l.dropWhile pyWhitespace).reverse.dropWhile pyWhitespace).reverse

/-- The extraction step of `GenerationService.generate_analysis`
(generation_service.py line 107):
`full_response.split("ANALYSIS:")[-1].strip()`. -/
def extract_analysis (full_response : String) : String :=
  ⟨pyStrip ((pySplit 'A' "NALYSIS:".data full_response.data).getLastD [])⟩

/-- `GenerationService.generate_analysis` (generation_service.py lines
52-111): `if not self._initialized: await self.initialize()` (loads the
LLM), then the empty-clauses short-circuit, otherwise prompt construction,
one `model.generate` call whose decoded output is modelled by the
parameter `decodedOutput`, and marker extraction. -/
def generate_analysis (st : GenSt) (decodedOutput : String → String)
    (query : String) (retrieved_clauses : List ClauseDict) : GenSt × String :=
  let st1 := if st.ready then st
             else { ready := true, loads := st.loads + 1, generateCalls := st.generateCalls }
  if retrieved_clauses.isEmpty then
    (st1, "No relevant policy clauses were found to analyze this claim.")
  else
    let prompt := buildPrompt query retrieved_clauses
    ({ st1 with generateCalls := st1.generateCalls + 1 },
      extract_analysis (decodedOutput prompt))

/-- The body of the `PolicySearchResponse` relevant to claim C2. -/
structure PolicySearchResponse where
  query : String
  results : List ClauseDict
  analysis : Option String
  total_results : Nat
deriving DecidableEq, Repr

/-- The `search_policies` route handler (main.py lines 99-168): the whole
body runs in one `try` block whose `except` turns any exception `e` into
`HTTPException(500, "Internal server error: " + str(e))`.  The outcome of
the vector search and the outcome of the generation call are passed as
`Except` parameters; an `Except.error` models the corresponding `await`
raising.  Generation runs only when `request.is_enable_rag` holds and the
clause list is non-empty. -/
def search_policies (claim_description : String) (is_enable_rag : Bool)
    (searchOutcome : Except String (List (ClauseDict × ℚ)))
    (genOutcome : Except String String) : Except String PolicySearchResponse :=
  match searchOutcome with
  | .error e => .error ("Internal server error: " ++ e)
  | .ok results =>
    let policy_clauses := results.map Prod.fst
    if is_enable_rag && !policy_clauses.isEmpty then
      match genOutcome with
      | .error e => .error ("Internal server error: " ++ e)
      | .ok analysis =>
        .ok ⟨claim_description, policy_clauses, some analysis, policy_clauses.length⟩
    else
      .ok ⟨claim_description, policy_clauses, none, policy_clauses.length⟩

/-- Where a task running `EmbeddingService.initialize` stands relative to
its `await` suspension point: `start` = about to run the flag check,
`loading` = suspended in `await loop.run_in_executor(...)` with the model
load submitted, `done` = returned. -/
inductive InitPhase where
  | start : InitPhase
  | loading : InitPhase
  | done : InitPhase
deriving DecidableEq, Repr

/-- Shared observable state of one backend's lazy-init idiom
(`EmbeddingService.initialize`, embedding_service.py lines 20-42; the same
flag idiom appears in `VectorStoreService.initialize` and
`GenerationService.initialize`): the `_initialized` flag, the number of
model loads executed, and the counts of "initializing" / "initialized"
log events. -/
structure BackendSt where
  ready : Bool
  loads : Nat
  logInitializing : Nat
  logInitialized : Nat
deriving DecidableEq, Repr

/-- One atomic scheduler step of a task inside `initialize` under asyncio
cooperative scheduling.  From `start`, the code up to the first `await` is
atomic: `if self._initialized: return` else log "initializing" and submit
the model load to the executor, then suspend.  From `loading`, the resumed
tail is atomic: set `self._initialized = True` and log the success
event. -/
def initStep : BackendSt → InitPhase → BackendSt × InitPhase
  | s, .start =>
    if s.ready then (s, .done)
    else ({ s with logInitializing := s.logInitializing + 1, loads := s.loads + 1 },
          .loading)
  | s, .loading =>
    ({ s with ready := true, logInitialized := s.logInitialized + 1 }, .done)
  | s, .done => (s, .done)

/-- Interleave two tasks running `initialize` on one shared backend state:
each schedule entry picks which task performs its next atomic step
(`true` = first task). -/
def runTwo (s : BackendSt) (pa pb : InitPhase) :
    List Bool → BackendSt × InitPhase × InitPhase
  | [] => (s, pa, pb)
  | c :: cs =>
    if c then
      let r := initStep s pa
      runTwo r.1 r.2 pb cs
    else
      let r := initStep s pb
      runTwo r.1 pa r.2 cs

/-- Formalization of claim C8's ordering assertion (from the spec's words):
some occurrence of `instr` in `s` starts at or after the end of some
occurrence of `q` in `s`. -/
def occursAfterIn (s q instr : List Char) : Bool :=
  (List.range (s.length + 1)).any fun j =>
    q.isPrefixOf (s.drop j) &&
    ((List.range (s.length + 1)).any fun i =>
      Nat.ble (j + q.length) i && instr.isPrefixOf (s.drop i))

set_option maxRecDepth 4000

lemma scoredOf_snd (r : RawResult) : (scoredOf r).2 = 1 - r.distance := rfl

lemma pySplitF_ne_nil (f : Nat) (s : Char) (ss l : List Char) :
    pySplitF f s ss l ≠ [] := by
  match f, l with
  | 0, _ => simp [pySplitF]
  | _ + 1, [] => simp [pySplitF]
  | fuel + 1, x :: xs =>
    simp only [pySplitF]
    split
    · simp
    · split <;> simp

lemma pySplitF_fuel (f1 : Nat) :
    ∀ (s : Char) (ss l : List Char) (f2 : Nat), l.length ≤ f1 → l.length ≤ f2 →
      pySplitF f1 s ss l = pySplitF f2 s ss l := by
  induction f1 with
  | zero =>
    intro s ss l f2 h1 _
    have hl : l = [] := List.eq_nil_of_length_eq_zero (Nat.le_zero.mp h1)
    subst hl
    cases f2 <;> rfl
  | succ f ih =>
    intro s ss l f2 h1 h2
    cases l with
    | nil => cases f2 <;> rfl
    | cons x xs =>
      cases f2 with
      | zero => simp at h2
      | succ g =>
        show pySplitF (f + 1) s ss (x :: xs) = pySplitF (g + 1) s ss (x :: xs)
        simp only [pySplitF]
        by_cases hp : (s :: ss).isPrefixOf (x :: xs) = true
        · rw [if_pos hp, if_pos hp]
          have hlen : (xs.drop ss.length).length ≤ f := by
            simp only [List.length_drop]
            simp only [List.length_cons] at h1
            omega
          have hlen2 : (xs.drop ss.length).length ≤ g := by
            simp only [List.length_drop]
            simp only [List.length_cons] at h2
            omega
          rw [ih s ss (xs.drop ss.length) g hlen hlen2]
        · rw [if_neg hp, if_neg hp]
          have hxs : xs.length ≤ f := by
            simp only [List.length_cons] at h1
            omega
          have hxs2 : xs.length ≤ g := by
            simp only [List.length_cons] at h2
            omega
          rw [ih s ss xs g hxs hxs2]

lemma pySplit_cons_pos {s : Char} {ss : List Char} {x : Char} {xs : List Char}
    (h : (s :: ss).isPrefixOf (x :: xs) = true) :
    pySplit s ss (x :: xs) = [] :: pySplit s ss (xs.drop ss.length) := by
  show pySplitF (x :: xs).length s ss (x :: xs) = _
  have hstep : pySplitF (x :: xs).length s ss (x :: xs)
      = [] :: pySplitF xs.length s ss (xs.drop ss.length) := by
    simp only [List.length_cons, pySplitF, if_pos h]
  rw [hstep]
  unfold pySplit
  congr 1
  exact pySplitF_fuel xs.length s ss (xs.drop ss.length) (xs.drop ss.length).length
    (by simp only [List.length_drop]; omega) (le_refl _)

lemma pySplit_cons_neg {s : Char} {ss : List Char} {x : Char} {xs : List Char}
    (h : (s :: ss).isPrefixOf (x :: xs) = false) :
    pySplit s ss (x :: xs) =
      match pySplit s ss xs with
      | [] => [[x]]
      | seg :: rest => (x :: seg) :: rest := by
  show pySplitF (x :: xs).length s ss (x :: xs) = _
  simp only [List.length_cons, pySplitF, h]
  rfl

lemma pySplit_not_contains {s : Char} {ss l : List Char}
    (h : containsSeq (s :: ss) l = false) : pySplit s ss l = [l] := by
  induction l with
  | nil => rfl
  | cons x xs ih =>
    simp only [containsSeq, Bool.or_eq_false_iff] at h
    rw [pySplit_cons_neg h.1, ih h.2]

lemma pySplit_prefix_free {s : Char} {ss : List Char} :
    ∀ (pre rest : List Char), pre.all (fun c => !(c == s)) = true →
      pySplit s ss (pre ++ rest) =
        match pySplit s ss rest with
        | [] => [pre]
        | seg :: rest2 => (pre ++ seg) :: rest2 := by
  intro pre
  induction pre with
  | nil =>
    intro rest _
    cases hr : pySplit s ss rest with
    | nil => exact absurd hr (pySplitF_ne_nil _ _ _ _)
    | cons seg r2 => simp [hr]
  | cons c pre ih =>
    intro rest h
    simp only [List.all_cons, Bool.and_eq_true, Bool.not_eq_true'] at h
    have hcs : (s == c) = false := by
      rw [beq_eq_false_iff_ne]
      intro hss
      rw [hss] at h
      simp at h
    have hpre : pre.all (fun c => !(c == s)) = true := by
      rcases h with ⟨_, h2⟩
      simpa using h2
    have h1 : (s :: ss).isPrefixOf (c :: (pre ++ rest)) = false := by
      simp [List.isPrefixOf, hcs]
    have hassoc : (c :: pre) ++ rest = c :: (pre ++ rest) := rfl
    rw [hassoc, pySplit_cons_neg h1, ih rest hpre]
    cases hr : pySplit s ss rest with
    | nil => exact absurd hr (pySplitF_ne_nil _ _ _ _)
    | cons seg r2 => simp

lemma pySplit_around {s : Char} {ss : List Char} (pre post : List Char)
    (hpre : pre.all (fun c => !(c == s)) = true)
    (hpost : containsSeq (s :: ss) post = false) :
    pySplit s ss (pre ++ (s :: ss) ++ post) = [pre, post] := by
  have hp : (s :: ss).isPrefixOf ((s :: ss) ++ post) = true := by
    rw [List.isPrefixOf_iff_prefix]
    exact List.prefix_append _ _
  have hmid : pySplit s ss ((s :: ss) ++ post) = [[], post] := by
    have hcons : (s :: ss) ++ post = s :: (ss ++ post) := rfl
    rw [hcons] at hp ⊢
    rw [pySplit_cons_pos hp, List.drop_left, pySplit_not_contains hpost]
  rw [List.append_assoc, pySplit_prefix_free pre ((s :: ss) ++ post) hpre, hmid]
  simp

lemma search_eq_filterMap (raw : List RawResult) (m : ℚ) :
    search raw m =
      raw.filterMap fun r => if m ≤ 1 - r.distance then some (scoredOf r) else none := by
  cases raw <;> simp [search]

lemma mem_search {raw : List RawResult} {m : ℚ} {p : ClauseDict × ℚ} :
    p ∈ search raw m ↔ ∃ r ∈ raw, m ≤ 1 - r.distance ∧ p = scoredOf r := by
  rw [search_eq_filterMap]
  simp only [List.mem_filterMap]
  constructor
  · rintro ⟨r, hr, h⟩
    by_cases hc : m ≤ 1 - r.distance
    · rw [if_pos hc] at h
      exact ⟨r, hr, hc, (Option.some_inj.mp h).symm⟩
    · rw [if_neg hc] at h
      exact absurd h (by simp)
  · rintro ⟨r, hr, hc, rfl⟩
    exact ⟨r, hr, by rw [if_pos hc]⟩

lemma filterMap_if_sublist {α β : Type} (g : α → β) (p : α → Prop) [DecidablePred p] :
    ∀ l : List α,
      List.Sublist (l.filterMap fun a => if p a then some (g a) else none) (l.map g)
  | [] => List.Sublist.refl _
  | a :: l => by
    by_cases h : p a
    · simpa [h] using List.Sublist.cons₂ (g a) (filterMap_if_sublist g p l)
    · simpa [h] using List.Sublist.cons (g a) (filterMap_if_sublist g p l)

/-- Claim C1: for every raw result kept by `search`, the score is computed
exactly as `1.0 - distance`; any raw result whose score is strictly below
`min_score` is dropped (never clamped), so every returned pair has score at
least `min_score`. -/
theorem search_scores_exact_and_filtered (raw : List RawResult) (m : ℚ) :
    (∀ p ∈ search raw m, m ≤ p.2 ∧ ∃ r ∈ raw, p = scoredOf r ∧ p.2 = 1 - r.distance) ∧
    (∀ r ∈ raw, 1 - r.distance < m → scoredOf r ∉ search raw m) := by
  constructor
  · intro p hp
    obtain ⟨r, hr, hc, rfl⟩ := mem_search.mp hp
    exact ⟨by rw [scoredOf_snd]; exact hc, r, hr, rfl, scoredOf_snd r⟩
  · intro r hr hlt hmem
    obtain ⟨r', _, hc', heq⟩ := mem_search.mp hmem
    have h2 : (scoredOf r).2 = (scoredOf r').2 := by rw [heq]
    rw [scoredOf_snd, scoredOf_snd] at h2
    rw [h2] at hlt
    exact absurd hc' (not_le.mpr hlt)

theorem search_scores_exact_and_filtered_witness :
    ((1 : ℚ)/2 ≤ (scoredOf ⟨"c1", "flood damage", none, none, (1 : ℚ)/10⟩).2) ∧
    (scoredOf ⟨"c2", "theft", none, none, (6 : ℚ)/10⟩ ∉
      search [⟨"c2", "theft", none, none, (6 : ℚ)/10⟩] ((1 : ℚ)/2)) := by
  constructor
  · exact ((search_scores_exact_and_filtered
      [⟨"c1", "flood damage", none, none, (1 : ℚ)/10⟩] ((1 : ℚ)/2)).1
      (scoredOf ⟨"c1", "flood damage", none, none, (1 : ℚ)/10⟩)
      (mem_search.mpr ⟨_, List.mem_singleton.mpr rfl, by norm_num, rfl⟩)).1
  · exact (search_scores_exact_and_filtered
      [⟨"c2", "theft", none, none, (6 : ℚ)/10⟩] ((1 : ℚ)/2)).2
      ⟨"c2", "theft", none, none, (6 : ℚ)/10⟩ (List.mem_singleton.mpr rfl) (by norm_num)

/-- Claim C5: `search` output is a sublist (hence a subsequence, no
re-sorting) of the scored raw results in raw order; when the raw distances
are ascending, the returned scores are descending. -/
theorem search_preserves_index_order (raw : List RawResult) (m : ℚ)
    (hsorted : (raw.map RawResult.distance).Pairwise (· ≤ ·)) :
    List.Sublist (search raw m) (raw.map scoredOf) ∧
    ((search raw m).map Prod.snd).Pairwise (· ≥ ·) := by
  have hsub : List.Sublist (search raw m) (raw.map scoredOf) := by
    rw [search_eq_filterMap]
    exact filterMap_if_sublist _ _ raw
  refine ⟨hsub, ?_⟩
  have h1 : raw.Pairwise (fun a b => a.distance ≤ b.distance) :=
    List.pairwise_map.mp hsorted
  have h2 : raw.Pairwise (fun a b => (scoredOf a).2 ≥ (scoredOf b).2) := by
    refine h1.imp ?_
    intro a b hab
    rw [scoredOf_snd, scoredOf_snd]
    linarith
  have h3 : ((raw.map scoredOf).map Prod.snd).Pairwise (· ≥ ·) := by
    rw [List.pairwise_map, List.pairwise_map]
    exact h2
  exact List.Pairwise.sublist (hsub.map Prod.snd) h3

theorem search_preserves_index_order_witness :
    List.Sublist
      (search [⟨"a", "ta", none, none, (1 : ℚ)/10⟩, ⟨"b", "tb", none, none, (3 : ℚ)/10⟩] 0)
      ([⟨"a", "ta", none, none, (1 : ℚ)/10⟩, ⟨"b", "tb", none, none, (3 : ℚ)/10⟩].map scoredOf) ∧
    ((search [⟨"a", "ta", none, none, (1 : ℚ)/10⟩,
        ⟨"b", "tb", none, none, (3 : ℚ)/10⟩] 0).map Prod.snd).Pairwise (· ≥ ·) :=
  search_preserves_index_order
    [⟨"a", "ta", none, none, (1 : ℚ)/10⟩, ⟨"b", "tb", none, none, (3 : ℚ)/10⟩] 0
    (by simp only [List.map_cons, List.map_nil, List.pairwise_cons, List.mem_singleton,
          List.not_mem_nil, List.Pairwise.nil, and_true, forall_eq, IsEmpty.forall_iff,
          forall_const]
        norm_num)

/-- Claim C6: when `min_score` lies in `[0, 1]` and every raw cosine
distance lies in `[0, 2]`, every score returned by `search` lies in
`[0, 1]`. -/
theorem search_score_in_unit_interval (raw : List RawResult) (m : ℚ)
    (h0 : 0 ≤ m) (h1 : m ≤ 1)
    (hd : ∀ r ∈ raw, 0 ≤ r.distance ∧ r.distance ≤ 2) :
    ∀ p ∈ search raw m, 0 ≤ p.2 ∧ p.2 ≤ 1 := by
  intro p hp
  obtain ⟨r, hr, hc, rfl⟩ := mem_search.mp hp
  have hdr := (hd r hr).1
  rw [scoredOf_snd]
  constructor <;> linarith

theorem search_score_in_unit_interval_witness :
    0 ≤ (scoredOf ⟨"c1", "hail", none, none, (2 : ℚ)/10⟩).2 ∧
    (scoredOf ⟨"c1", "hail", none, none, (2 : ℚ)/10⟩).2 ≤ 1 :=
  search_score_in_unit_interval [⟨"c1", "hail", none, none, (2 : ℚ)/10⟩] ((1 : ℚ)/2)
    (by norm_num) (by norm_num)
    (by intro r hr
        rw [List.mem_singleton] at hr
        subst hr
        norm_num)
    (scoredOf ⟨"c1", "hail", none, none, (2 : ℚ)/10⟩)
    (mem_search.mpr ⟨_, List.mem_singleton.mpr rfl, by norm_num, rfl⟩)

/-- Claim C7: searching when the index query returns zero raw results
yields the empty result list; the formatting stage is a total function, so
this is a successful zero-result response, not a failure. -/
theorem search_empty_index (m : ℚ) : search [] m = [] := rfl

/-- Claim C10: encoding an empty text list returns an empty embedding list
without any batch-encode call on the model, and `encode_single` returns the
empty vector (instead of failing on an out-of-range index) when the batch
encode yields no embeddings. -/
theorem encode_empty_and_single_guard (st : EmbSt)
    (f : List String → List (List ℚ)) (t : String) (hf : f [t] = []) :
    (encode st f []).2 = [] ∧
    (encode st f []).1.encodeCalls = st.encodeCalls ∧
    (encode_single st f t).2 = [] := by
  refine ⟨rfl, ?_, ?_⟩
  · by_cases h : st.ready <;> simp [encode, h]
  · simp [encode_single, encode, hf]

theorem encode_empty_and_single_guard_witness :
    (encode ⟨false, 0, 0⟩ (fun _ => []) []).2 = [] ∧
    (encode ⟨false, 0, 0⟩ (fun _ => []) []).1.encodeCalls =
      (⟨false, 0, 0⟩ : EmbSt).encodeCalls ∧
    (encode_single ⟨false, 0, 0⟩ (fun _ => []) "claim text").2 = [] :=
  encode_empty_and_single_guard ⟨false, 0, 0⟩ (fun _ => []) "claim text" rfl

/-- Counterexample to claim C4 as stated: calling `generate_analysis` with
an empty clause list on an uninitialized service does return the fixed
message, but it performs one LLM model load first (the initialization
check precedes the empty-clauses short-circuit), so work on the generation
backend is not avoided. -/
theorem analyze_empty_cex :
    (generate_analysis ⟨false, 0, 0⟩ (fun _ => "") "q" []).2 =
      "No relevant policy clauses were found to analyze this claim." ∧
    (generate_analysis ⟨false, 0, 0⟩ (fun _ => "") "q" []).1.loads = 1 ∧
    (1 : Nat) ≠ 0 :=
  ⟨rfl, rfl, one_ne_zero⟩

/-- Claim C4 (amended): with an empty clause list, `generate_analysis`
returns the fixed "nothing to analyze" message and never calls the
backend's generate; but it does first initialize the backend (one model
load) when the service is not yet initialized. -/
theorem analyze_empty_short_circuit (st : GenSt) (f : String → String) (q : String) :
    (generate_analysis st f q []).2 =
      "No relevant policy clauses were found to analyze this claim." ∧
    (generate_analysis st f q []).1.generateCalls = st.generateCalls ∧
    (generate_analysis st f q []).1.loads =
      (if st.ready then st.loads else st.loads + 1) := by
  by_cases h : st.ready <;> simp [generate_analysis, h]

/-- Counterexample to claim C2 as stated: with retrieval already succeeded
(one scored clause) and the generation call failing, the handler's single
`except` path maps the whole request to an opaque 500 error, so the caller
receives no retrieval results. -/
theorem gen_failure_loses_results_cex :
    search_policies "water damage claim" true
      (Except.ok [((⟨"c1", "Fire damage is covered.", none, none, 1⟩ : ClauseDict), 1)])
      (Except.error "CUDA out of memory") =
      Except.error "Internal server error: CUDA out of memory" ∧
    (Except.error "Internal server error: CUDA out of memory" :
      Except String PolicySearchResponse).toOption = none :=
  ⟨rfl, rfl⟩

/-- Claim C2 (amended): a generation-backend error after successful
retrieval makes the whole request fail with a single opaque internal
error, discarding the computed clauses; the retrieval results reach the
caller only when the generation call succeeds (or is skipped). -/
theorem gen_failure_fails_request (q e a : String)
    (rs : List (ClauseDict × ℚ)) (h : rs ≠ []) :
    search_policies q true (Except.ok rs) (Except.error e) =
      Except.error ("Internal server error: " ++ e) ∧
    search_policies q true (Except.ok rs) (Except.ok a) =
      Except.ok ⟨q, rs.map Prod.fst, some a, (rs.map Prod.fst).length⟩ := by
  cases rs with
  | nil => exact absurd rfl h
  | cons p t => constructor <;> simp [search_policies]

theorem gen_failure_fails_request_witness :
    search_policies "q" true
      (Except.ok [((⟨"c1", "t", none, none, 1⟩ : ClauseDict), (1 : ℚ))])
      (Except.error "timeout") =
      Except.error ("Internal server error: " ++ "timeout") ∧
    search_policies "q" true
      (Except.ok [((⟨"c1", "t", none, none, 1⟩ : ClauseDict), (1 : ℚ))])
      (Except.ok "analysis text") =
      Except.ok ⟨"q",
        ([((⟨"c1", "t", none, none, 1⟩ : ClauseDict), (1 : ℚ))].map Prod.fst),
        some "analysis text",
        ([((⟨"c1", "t", none, none, 1⟩ : ClauseDict), (1 : ℚ))].map Prod.fst).length⟩ :=
  gen_failure_fails_request "q" "timeout" "analysis text"
    [((⟨"c1", "t", none, none, 1⟩ : ClauseDict), (1 : ℚ))] (by simp)

/-- Counterexample to claim C3 as stated: two concurrent callers of
`initialize` on an uninitialized backend, interleaved at the `await`
suspension point (first both run their pre-await block, then both resume),
execute two model loads and log two "initializing" events, not exactly
one. -/
theorem init_single_flight_cex :
    (runTwo ⟨false, 0, 0, 0⟩ InitPhase.start InitPhase.start
      [true, false, true, false]).1.loads = 2 ∧
    (runTwo ⟨false, 0, 0, 0⟩ InitPhase.start InitPhase.start
      [true, false, true, false]).1.logInitializing = 2 ∧
    (runTwo ⟨false, 0, 0, 0⟩ InitPhase.start InitPhase.start
      [true, false, true, false]).2.1 = InitPhase.done ∧
    (runTwo ⟨false, 0, 0, 0⟩ InitPhase.start InitPhase.start
      [true, false, true, false]).2.2 = InitPhase.done ∧
    (2 : Nat) ≠ 1 :=
  ⟨rfl, rfl, rfl, rfl, by decide⟩

/-- Claim C3 (amended): the flag check guards only the already-initialized
case: a caller entering `initialize` when the flag is already set performs
no load and no logging, and the flag stays set (never re-initialize after
success); but every caller entering while the flag is still unset starts
its own load and logs its own "initializing" event, so concurrent callers
on an uninitialized backend may each run an initialization attempt. -/
theorem init_guard_behavior (s : BackendSt) (ph : InitPhase) :
    (s.ready = true →
      (initStep s ph).1.loads = s.loads ∧
      (initStep s ph).1.logInitializing = s.logInitializing ∧
      (initStep s ph).1.ready = true) ∧
    (s.ready = false → ph = InitPhase.start →
      (initStep s ph).1.loads = s.loads + 1 ∧
      (initStep s ph).1.logInitializing = s.logInitializing + 1 ∧
      (initStep s ph).2 = InitPhase.loading) := by
  constructor
  · intro h
    cases ph <;> simp [initStep, h]
  · intro h hp
    subst hp
    simp [initStep, h]

theorem init_guard_behavior_witness :
    (initStep ⟨false, 0, 0, 0⟩ InitPhase.start).1.loads = 0 + 1 ∧
    (initStep ⟨false, 0, 0, 0⟩ InitPhase.start).1.logInitializing = 0 + 1 ∧
    (initStep ⟨false, 0, 0, 0⟩ InitPhase.start).2 = InitPhase.loading :=
  (init_guard_behavior ⟨false, 0, 0, 0⟩ InitPhase.start).2 rfl rfl

/-- Counterexample to claim C8 as stated: in the concrete prompt built for
one clause, no occurrence of the coverage-and-citation instruction starts
after the query; instead the query occurs after the instruction, because
the prompt opens with the instruction header and ends with the query and
the answer marker. -/
theorem prompt_instruction_position_cex :
    occursAfterIn
      (buildPrompt "my claim" [⟨"c1", "fire is covered", none, none, 1⟩]).data
      ("my claim".data)
      ("State if it is likely covered and cite the clause ID".data) = false ∧
    occursAfterIn
      (buildPrompt "my claim" [⟨"c1", "fire is covered", none, none, 1⟩]).data
      ("State if it is likely covered and cite the clause ID".data)
      ("my claim".data) = true := by
  constructor
  · decide
  · decide

/-- Claim C8 (amended): for a non-empty clause list the prompt is built
deterministically by concatenating the fixed instruction (stating coverage
likelihood and citing the clause id), then each clause's id and text as a
bullet line in the given order joined by newlines, then the query, then
the `ANALYSIS:` answer marker. -/
theorem prompt_layout (q : String) (cs : List ClauseDict) :
    (buildPrompt q cs).data =
      ("Instruct: You are an expert Insurance Policy Analyst. ").data ++
      ("Based on the following policy clauses, analyze the user's claim description. ").data ++
      ("State if it is likely covered and cite the clause ID.\n\n").data ++
      ("POLICY CLAUSES:\n").data ++
      (pyJoin "\n" (cs.map bulletLine)).data ++
      ("\n\nUSER CLAIM: ").data ++ q.data ++ ("\n\nANALYSIS:").data ∧
    ∀ c, (bulletLine c).data =
      ("- [").data ++ c.clause_id.data ++ ("] ").data ++ c.clause_text.data := by
  constructor
  · simp [buildPrompt, String.data_append, List.append_assoc]
  · intro c
    simp [bulletLine, String.data_append, List.append_assoc]

/-- Counterexample to claim C9 as stated: the extraction strips
surrounding whitespace, so it returns neither exactly the text following
the marker (here `" yes"`) nor, when the marker is absent, the raw output
verbatim (here `"raw output "`). -/
theorem extract_analysis_cex :
    extract_analysis "ANALYSIS: yes" = "yes" ∧ ("yes" : String) ≠ " yes" ∧
    extract_analysis "raw output " = "raw output" ∧
    ("raw output" : String) ≠ "raw output " := by
  refine ⟨by decide, by decide, by decide, by decide⟩

/-- Claim C9 (amended): the result is the text following the marker with
leading and trailing whitespace stripped — for raw output of the form
`pre ++ "ANALYSIS:" ++ post` with `pre` free of the marker's initial
character and `post` marker-free, the stripped `post` is returned — and
when the marker is absent the raw output is returned stripped, never a
failure. -/
theorem extract_analysis_marker (pre post : List Char) (raw : String)
    (hpre : pre.all (fun c => !(c == 'A')) = true)
    (hpost : containsSeq ("ANALYSIS:".data) post = false)
    (hraw : containsSeq ("ANALYSIS:".data) raw.data = false) :
    extract_analysis ⟨pre ++ "ANALYSIS:".data ++ post⟩ = ⟨pyStrip post⟩ ∧
    extract_analysis raw = ⟨pyStrip raw.data⟩ := by
  constructor
  · unfold extract_analysis
    congr 1
    congr 1
    rw [show (⟨pre ++ "ANALYSIS:".data ++ post⟩ : String).data
        = pre ++ ('A' :: "NALYSIS:".data) ++ post from rfl]
    rw [pySplit_around pre post hpre hpost]
    rfl
  · unfold extract_analysis
    congr 1
    congr 1
    rw [pySplit_not_contains hraw]
    rfl

theorem extract_analysis_marker_witness :
    extract_analysis ⟨"prompt; ".data ++ "ANALYSIS:".data ++ " covered by c1 ".data⟩
      = ⟨pyStrip (" covered by c1 ".data)⟩ ∧
    extract_analysis "no marker" = ⟨pyStrip ("no marker".data)⟩ :=
  extract_analysis_marker ("prompt; ".data) (" covered by c1 ".data) "no marker"
    (by decide) (by decide) (by decide)

end PolicyRag
